import Mathlib

/-!
Shallow embedding of `megatec-ups-control` (`src/lib.rs`): a Rust library
speaking the Megatec UPS text protocol over USB string-descriptor reads.

Modelling conventions:
* Rust `u8` values are Lean `Nat`s below 256; every `u8` arithmetic
  operation is taken modulo 256 (release-mode wrapping semantics) via the
  helpers `u8add`, `u8sub`, `u8mul`.
* The USB transport (`rusb::DeviceHandle::read_control`) is an external
  collaborator.  A single transport interaction is modelled by a
  `Response`: the byte count the transport reports together with the
  buffer contents after the read.  Command methods are modelled as
  functions from the responses they consume to the pair of
  (trace of transport events issued, returned value).
* Decoded protocol strings are `List Char`; each surviving byte is mapped
  1:1 to the character with its code point (`Char.ofNat`).
* Rust `f64` parsing (`str::parse::<f64>`) is an external library
  function; it is modelled exactly over finite decimal literals
  (optional sign, integer part, optional fractional part) with exact
  rational semantics.  The binary-rounding step of `f64`, and the
  `inf`/`nan`/exponent forms of the Rust grammar, are abstracted away:
  no claim depends on them.
-/

/-- Error type of the library (`enum UpsError`).  The payload of the
`Usb` constructor (an `rusb::Error`) is abstracted to a `Nat` code. -/
inductive UpsError where
  | Usb (code : Nat)
  | InvalidResponse
  | InvalidTime
deriving DecidableEq, Repr

/-- Constant `ASCII_MIN` from the source. -/
def ASCII_MIN : Nat := 32

/-- Constant `ASCII_MAX` from the source. -/
def ASCII_MAX : Nat := 126

/-- Constant `CHAR_QUOTE` from the source. -/
def CHAR_QUOTE : Nat := 34

/-- Constant `CHAR_BACKTICK` from the source. -/
def CHAR_BACKTICK : Nat := 96

/-- Constant `CHAR_PAREN` from the source. -/
def CHAR_PAREN : Nat := 40

/-- `MegatecUps::is_valid_char`: `c >= ASCII_MIN && c <= ASCII_MAX
&& c != CHAR_QUOTE && c != CHAR_BACKTICK && c != CHAR_PAREN`. -/
def is_valid_char (c : Nat) : Bool :=
  decide (ASCII_MIN ≤ c) && decide (c ≤ ASCII_MAX) &&
    c != CHAR_QUOTE && c != CHAR_BACKTICK && c != CHAR_PAREN

/-- The filter-and-decode step of `get_string_descriptor`:
`data.into_iter().filter(is_valid_char).map(|c| c as char).collect()`. -/
def decodeBytes (data : List Nat) : List Char :=
  (data.filter is_valid_char).map Char.ofNat

/-- `MegatecUps::get_string_descriptor`, after the transport call:
`result` is the byte count reported by `read_control`, `data` is the
buffer after the read (the code filters the whole buffer, of size
`length`, not only the first `result` bytes).  `if result >= 3` the
filtered decode is returned, otherwise `Err(UpsError::InvalidResponse)`. -/
def get_string_descriptor (result : Nat) (data : List Nat) :
    Except UpsError (List Char) :=
  if 3 ≤ result then .ok (decodeBytes data)
  else .error UpsError.InvalidResponse

/-- Modelled from the spec (§3 Raw Descriptor Response): a variant of the
descriptor decode in which "first bytes are descriptor-header bytes
(count and type) and must be excluded from the printable-character
filter; only bytes 2..N are candidate text".  This definition follows
the spec's words, not the source; it exists to be compared with
`get_string_descriptor`. -/
def get_string_descriptor_headerExcluded (result : Nat) (data : List Nat) :
    Except UpsError (List Char) :=
  if 3 ≤ result then .ok (decodeBytes (data.drop 2))
  else .error UpsError.InvalidResponse

/-- Rust `u8` addition (wrapping, release semantics). -/
def u8add (a b : Nat) : Nat := (a + b) % 256

/-- Rust `u8` subtraction (wrapping, release semantics); `a b < 256`. -/
def u8sub (a b : Nat) : Nat := (a + 256 - b) % 256

/-- Rust `u8` multiplication (wrapping, release semantics). -/
def u8mul (a b : Nat) : Nat := (a * b) % 256

/-- `MegatecUps::calculate_time`.  Guard: `minutes == 0 || minutes > 99`
fails with `InvalidTime`; then the `match` with arms `1..=9`, `10..=19`,
`20..=99` and a fall-through `_` arm also failing with `InvalidTime`.
All arithmetic inside is `u8` arithmetic; the final `value as u16` cast
is lossless and the result is reported as a `Nat`. -/
def calculate_time (minutes : Nat) : Except UpsError Nat :=
  if minutes = 0 || decide (99 < minutes) then .error UpsError.InvalidTime
  else if 1 ≤ minutes ∧ minutes ≤ 9 then
    .ok (u8add 100 minutes)
  else if 10 ≤ minutes ∧ minutes ≤ 19 then
    .ok (u8add 125 (u8sub minutes 19))
  else if 20 ≤ minutes ∧ minutes ≤ 99 then
    let range_start := u8add (u8mul (u8sub minutes 20 / 10) 10) 20
    .ok (u8add 132 (u8mul (u8sub minutes range_start) 7))
  else .error UpsError.InvalidTime

/-- The piecewise time-code mapping exactly as the spec states it
(§4.4 / claim C1), in plain integer arithmetic:
1..=9 gives `100 + minutes`; 10..=19 gives `125 + (minutes - 19)`;
20..=99 gives `132 + (minutes - range_start) * 7` with
`range_start = floor((minutes - 20) / 10) * 10 + 20`. -/
def timeCodeSpec (m : Nat) : Int :=
  if m ≤ 9 then 100 + (m : Int)
  else if m ≤ 19 then 125 + ((m : Int) - 19)
  else 132 + ((m : Int) - (((m : Int) - 20) / 10 * 10 + 20)) * 7

/-- Helper: `Except.isOk` specialised to this development. -/
def exceptIsOk : Except UpsError Nat → Bool
  | .ok _ => true
  | .error _ => false

/-- Helper: the payload of an `ok` result (0 on error). -/
def okValue : Except UpsError Nat → Nat
  | .ok v => v
  | .error _ => 0

/-- Whitespace test matching Rust `char::is_whitespace` on the ASCII
range (U+0009 to U+000D and U+0020); the non-ASCII Unicode whitespace
code points are irrelevant to the protocol's ASCII payloads and are
omitted. -/
def rustIsWhitespace (c : Char) : Bool :=
  c.toNat == 32 || (decide (9 ≤ c.toNat) && decide (c.toNat ≤ 13))

/-- Rust `str::split_whitespace`: split on runs of whitespace, no empty
tokens. -/
def splitWhitespace (cs : List Char) : List (List Char) :=
  (cs.splitOnP rustIsWhitespace).filter (fun t => !t.isEmpty)

/-- Numeric value of a list of decimal digit characters, most
significant first. -/
def digitsVal (cs : List Char) : Nat :=
  cs.foldl (fun acc c => acc * 10 + (c.toNat - 48)) 0

/-- Model of Rust `str::parse::<f64>` on finite decimal literals, with
exact rational semantics: optional `+`/`-` sign, then a significand
`Digits`, `Digits '.' [Digits]` or `[Digits] '.' Digits`.  The
`inf`/`nan`/exponent forms of the Rust grammar and the rounding of the
exact decimal value to the nearest binary `f64` are abstracted away. -/
def parseF64 (cs : List Char) : Option Rat :=
  let core : List Char → Option Rat := fun body =>
    let intPart := body.takeWhile Char.isDigit
    let rest := body.dropWhile Char.isDigit
    match rest with
    | [] => if intPart.isEmpty then none else some (digitsVal intPart : Rat)
    | c :: frac =>
      if c == '.' && frac.all Char.isDigit &&
          (!intPart.isEmpty || !frac.isEmpty) then
        some ((digitsVal intPart : Rat) +
          (digitsVal frac : Rat) / ((10 : Rat) ^ frac.length))
      else none
  match cs with
  | [] => none
  | c :: rest =>
    if c == '-' then (core rest).map (fun q => -q)
    else if c == '+' then core rest
    else core cs

/-- `status.split_whitespace().take(7).map(parse).collect::<Result<_,_>>()`:
parse every token, failing as a whole if any single parse fails. -/
def parseAll : List (List Char) → Option (List Rat)
  | [] => some []
  | t :: ts =>
    match parseF64 t, parseAll ts with
    | some v, some vs => some (v :: vs)
    | _, _ => none

/-- `struct UpsStatus`: the seven ordered status fields.  Rust `f64`
fields are modelled as exact rationals. -/
structure UpsStatus where
  input_voltage : Rat
  input_fault_voltage : Rat
  output_voltage : Rat
  output_current : Rat
  input_frequency : Rat
  battery_voltage : Rat
  temperature : Rat
deriving DecidableEq, Repr

/-- `UpsStatus::from_str`: split on whitespace, take the first seven
tokens, parse each as a number (any failure gives `InvalidResponse`),
require exactly seven values (`values.len() != 7` gives
`InvalidResponse`), and fill the fields in order `values[0]..values[6]`. -/
def UpsStatus.from_str (status : List Char) : Except UpsError UpsStatus :=
  match parseAll ((splitWhitespace status).take 7) with
  | none => .error UpsError.InvalidResponse
  | some values =>
    if values.length = 7 then
      .ok ⟨values.getD 0 0, values.getD 1 0, values.getD 2 0,
           values.getD 3 0, values.getD 4 0, values.getD 5 0,
           values.getD 6 0⟩
    else .error UpsError.InvalidResponse

/-- One transport interaction: the byte count reported by
`read_control` and the buffer contents after the read. -/
abbrev Response := Nat × List Nat

/-- A transport event issued by a command method: a string-descriptor
control read with its descriptor index and max-length parameter, or a
fixed sleep of a number of seconds. -/
inductive Event where
  | read (index : Nat) (maxLength : Nat)
  | sleep (seconds : Nat)
deriving DecidableEq, Repr

/-- `MegatecUps::get_name`: one read of descriptor 2, max length 256. -/
def get_name (r : Response) : List Event × Except UpsError (List Char) :=
  ([.read 2 256], get_string_descriptor r.1 r.2)

/-- `MegatecUps::get_status`: a first read of descriptor 3 (max 256)
whose decoded result is discarded (`let _ = ...?`, errors still
propagate), a fixed 1-second sleep, then a second read of descriptor 3
(max 256) whose decoded result is parsed by `UpsStatus::from_str`. -/
def get_status (r1 r2 : Response) :
    List Event × Except UpsError UpsStatus :=
  match get_string_descriptor r1.1 r1.2 with
  | .error e => ([.read 3 256], .error e)
  | .ok _ =>
    ([.read 3 256, .sleep 1, .read 3 256],
     (get_string_descriptor r2.1 r2.2).bind UpsStatus.from_str)

/-- `MegatecUps::get_status_no_ack`: a single read of descriptor 3
(max 256), parsed directly. -/
def get_status_no_ack (r : Response) :
    List Event × Except UpsError UpsStatus :=
  ([.read 3 256], (get_string_descriptor r.1 r.2).bind UpsStatus.from_str)

/-- `MegatecUps::test`: one read of descriptor 4, max length 256. -/
def test (r : Response) : List Event × Except UpsError Unit :=
  ([.read 4 256], (get_string_descriptor r.1 r.2).map (fun _ => ()))

/-- `MegatecUps::test_until_battery_low`: one read of descriptor 5,
max length 256. -/
def test_until_battery_low (r : Response) :
    List Event × Except UpsError Unit :=
  ([.read 5 256], (get_string_descriptor r.1 r.2).map (fun _ => ()))

/-- `MegatecUps::test_with_time`: compute the time code from `minutes`
(`?` propagates `InvalidTime` before any transport call), then one read
of descriptor 6 with the computed code as the max-length parameter. -/
def test_with_time (minutes : Nat) (r : Response) :
    List Event × Except UpsError Unit :=
  match calculate_time minutes with
  | .error e => ([], .error e)
  | .ok t => ([.read 6 t], (get_string_descriptor r.1 r.2).map (fun _ => ()))

/-- `MegatecUps::switch_beep`: one read of descriptor 7, max length 256. -/
def switch_beep (r : Response) : List Event × Except UpsError Unit :=
  ([.read 7 256], (get_string_descriptor r.1 r.2).map (fun _ => ()))

/-- `MegatecUps::abort_test`: one read of descriptor 11, max length 256. -/
def abort_test (r : Response) : List Event × Except UpsError Unit :=
  ([.read 11 256], (get_string_descriptor r.1 r.2).map (fun _ => ()))

/-- `MegatecUps::get_rating`: one read of descriptor 13, max length 256. -/
def get_rating (r : Response) : List Event × Except UpsError (List Char) :=
  ([.read 13 256], get_string_descriptor r.1 r.2)

/-- `MegatecUps::shutdown`: one read of descriptor 105, max length 2460. -/
def shutdown (r : Response) : List Event × Except UpsError Unit :=
  ([.read 105 2460], (get_string_descriptor r.1 r.2).map (fun _ => ()))

deriving instance DecidableEq for Except

/-- Helper: `parseAll` preserves the token count when it succeeds. -/
theorem parseAll_length :
    ∀ (ts : List (List Char)) (vs : List Rat),
      parseAll ts = some vs → vs.length = ts.length := by
  intro ts
  induction ts with
  | nil =>
    intro vs h
    simp only [parseAll, Option.some.injEq] at h
    simp [← h]
  | cons t ts ih =>
    intro vs h
    unfold parseAll at h
    cases hp : parseF64 t <;> rw [hp] at h
    · exact absurd h (by simp)
    · cases hq : parseAll ts <;> rw [hq] at h
      · exact absurd h (by simp)
      · simp only [Option.some.injEq] at h
        simp [← h, ih _ hq]

set_option maxRecDepth 4096 in
/-- Claim C4: `is_valid_char b` holds exactly when `b` lies in `[32,126]`
and is none of 34, 96, 40; bytes 34, 96, 40, 31, 127 are dropped and 65
is kept; decoding maps every surviving byte 1:1 to its character and
drops failing bytes, giving an order-preserving compacted string. -/
theorem C4_char_filter_decode :
    (∀ b, b < 256 →
      (is_valid_char b = true ↔
        (32 ≤ b ∧ b ≤ 126 ∧ b ≠ 34 ∧ b ≠ 96 ∧ b ≠ 40))) ∧
    is_valid_char 34 = false ∧ is_valid_char 96 = false ∧
    is_valid_char 40 = false ∧ is_valid_char 31 = false ∧
    is_valid_char 127 = false ∧ is_valid_char 65 = true ∧
    ∀ data : List Nat,
      List.Sublist (decodeBytes data) (data.map Char.ofNat) ∧
      (decodeBytes data).length = (data.filter is_valid_char).length ∧
      ∀ b ∈ data, is_valid_char b = true → Char.ofNat b ∈ decodeBytes data := by
  refine ⟨by decide, by decide, by decide, by decide, by decide, by decide,
    by decide, fun data => ⟨?_, ?_, ?_⟩⟩
  · exact (List.filter_sublist data).map Char.ofNat
  · simp [decodeBytes]
  · intro b hb hv
    exact List.mem_map_of_mem _ (List.mem_filter.mpr ⟨hb, hv⟩)

/-- Witness for C4 at byte 65 in the buffer `[65, 34, 66]`. -/
theorem C4_witness :
    Char.ofNat 65 ∈ decodeBytes [65, 34, 66] :=
  (C4_char_filter_decode.2.2.2.2.2.2.2 [65, 34, 66]).2.2 65 (by decide)
    (by decide)

/-- Claim C5: a descriptor read reporting fewer than 3 bytes fails with
`InvalidResponse` regardless of the buffer content; a read reporting 3
or more bytes never raises `InvalidResponse` and yields the filtered
decoded string. -/
theorem C5_descriptor_min_length (result : Nat) (data : List Nat) :
    (result < 3 →
      get_string_descriptor result data = .error UpsError.InvalidResponse) ∧
    (3 ≤ result →
      get_string_descriptor result data = .ok (decodeBytes data)) := by
  constructor
  · intro h
    have h3 : ¬ 3 ≤ result := by omega
    simp [get_string_descriptor, h3]
  · intro h
    simp [get_string_descriptor, h]

/-- Witness for C5 at reported counts 2 and 3 on the buffer
`[72, 105, 33]`. -/
theorem C5_witness :
    get_string_descriptor 2 [72, 105, 33] = .error UpsError.InvalidResponse ∧
    get_string_descriptor 3 [72, 105, 33] = .ok (decodeBytes [72, 105, 33]) :=
  ⟨(C5_descriptor_min_length 2 [72, 105, 33]).1 (by decide),
   (C5_descriptor_min_length 3 [72, 105, 33]).2 (by decide)⟩

/-- Counterexample to claim C2: on the buffer `[65, 3, 0]` with a
reported count of 3, `get_string_descriptor` keeps the printable header
byte at position 0 (65, the letter A), while the spec's
header-excluding decode would return the empty string — so bytes at
positions 0 and 1 ARE candidates for inclusion in the code. -/
theorem C2_counterexample :
    get_string_descriptor 3 [65, 3, 0] = .ok [Char.ofNat 65] ∧
    get_string_descriptor_headerExcluded 3 [65, 3, 0] = .ok [] := by
  exact ⟨by decide, by decide⟩

/-- Claim C2 as amended: the printable-character filter is applied to
the whole returned buffer, header bytes included — a printable byte at
position 0 or 1 survives into the decoded string. -/
theorem C2_amended_header_bytes_included (result : Nat) (data : List Nat)
    (b : Nat) (hres : 3 ≤ result) (hb : b ∈ data.take 2)
    (hv : is_valid_char b = true) :
    ∃ s, get_string_descriptor result data = .ok s ∧ Char.ofNat b ∈ s := by
  refine ⟨decodeBytes data, by simp [get_string_descriptor, hres], ?_⟩
  exact List.mem_map_of_mem _
    (List.mem_filter.mpr ⟨List.take_subset _ _ hb, hv⟩)

/-- Witness for the amended C2 at the buffer `[65, 3, 0]`. -/
theorem C2_amended_witness :
    ∃ s, get_string_descriptor 3 [65, 3, 0] = .ok s ∧ Char.ofNat 65 ∈ s :=
  C2_amended_header_bytes_included 3 [65, 3, 0] 65 (by decide) (by decide)
    (by decide)

set_option maxRecDepth 8192 in
/-- Helper: over the whole `u8` domain, `calculate_time` fails with
`InvalidTime` exactly for 0 and for 100 and above. -/
theorem calculate_time_error_iff :
    ∀ m, m < 256 →
      (calculate_time m = .error UpsError.InvalidTime ↔
        (m = 0 ∨ 100 ≤ m)) := by
  decide

set_option maxRecDepth 8192 in
/-- Helper: on the valid range, `calculate_time` succeeds with a value
between 101 and 195. -/
theorem calculate_time_ok_bounds :
    ∀ m, m < 100 → 1 ≤ m →
      exceptIsOk (calculate_time m) = true ∧
      101 ≤ okValue (calculate_time m) ∧
      okValue (calculate_time m) ≤ 195 := by
  decide

set_option maxRecDepth 8192 in
/-- Helper: on the valid range, `calculate_time` computes exactly the
spec's piecewise integer formula. -/
theorem calculate_time_piecewise :
    ∀ m, m < 100 → 1 ≤ m →
      calculate_time m = .ok (timeCodeSpec m).toNat ∧
      ((timeCodeSpec m).toNat : Int) = timeCodeSpec m := by
  decide

set_option maxRecDepth 8192 in
/-- Helper: the `10..=19` arm under wrapping `u8` arithmetic. -/
theorem calculate_time_teens :
    ∀ m, m < 20 → 10 ≤ m →
      (m ≤ 18 →
        u8sub m 19 = m + 237 ∧ (u8sub m 19 : Int) ≠ (m : Int) - 19) ∧
      u8add 125 (u8sub m 19) = 106 + m ∧
      calculate_time m = .ok (106 + m) := by
  decide

/-- Claim C1: for every `minutes` in `1..=99`, `calculate_time` returns
exactly the spec's piecewise time-code `timeCodeSpec minutes`, with no
loss in the `Int.toNat` reading (the value is non-negative). -/
theorem C1_piecewise_time_code (m : Nat) (h1 : 1 ≤ m) (h2 : m ≤ 99) :
    calculate_time m = .ok (timeCodeSpec m).toNat ∧
    ((timeCodeSpec m).toNat : Int) = timeCodeSpec m :=
  calculate_time_piecewise m (by omega) h1

/-- Witness for C1 at `minutes = 29` (time code 195). -/
theorem C1_witness :
    calculate_time 29 = .ok 195 ∧ ((195 : Nat) : Int) = timeCodeSpec 29 := by
  have h := C1_piecewise_time_code 29 (by decide) (by decide)
  have e : (timeCodeSpec 29).toNat = 195 := by decide
  exact ⟨e ▸ h.1, e ▸ h.2⟩

/-- Claim C6: `calculate_time` (and therefore `test_with_time`) fails
with `InvalidTime` exactly when the requested duration lies outside
`[1, 99]` minutes. -/
theorem C6_invalid_time_range (m : Nat) (hm : m < 256) (r : Response) :
    (calculate_time m = .error UpsError.InvalidTime ↔
      (m = 0 ∨ 100 ≤ m)) ∧
    ((test_with_time m r).2 = .error UpsError.InvalidTime ↔
      (m = 0 ∨ 100 ≤ m)) := by
  have h1 := calculate_time_error_iff m hm
  refine ⟨h1, ?_, ?_⟩
  · intro h
    cases hc : calculate_time m with
    | error e =>
      have ht : (test_with_time m r).2 = .error e := by
        simp [test_with_time, hc]
      have h2 := ht.symm.trans h
      simp only [Except.error.injEq] at h2
      exact h1.mp (h2 ▸ hc)
    | ok t =>
      have ht : (test_with_time m r).2 =
          (get_string_descriptor r.1 r.2).map (fun _ => ()) := by
        simp [test_with_time, hc]
      have h2 := ht.symm.trans h
      by_cases hr : 3 ≤ r.1 <;>
        simp [get_string_descriptor, hr, Except.map] at h2
  · intro h
    have hc := h1.mpr h
    simp [test_with_time, hc]

/-- Witness for C6 at `minutes = 0`. -/
theorem C6_witness :
    (calculate_time 0 = .error UpsError.InvalidTime ↔
      (0 = 0 ∨ 100 ≤ 0)) ∧
    ((test_with_time 0 (0, [])).2 = .error UpsError.InvalidTime ↔
      (0 = 0 ∨ 100 ≤ 0)) :=
  C6_invalid_time_range 0 (by decide) (0, [])

/-- Claim C9: for every `minutes` passing the guard, some range arm
applies (the fall-through arm is unreachable) and the computed code
lies in `101..=195`, so it fits both the `u8` intermediate and the
`u16` max-length parameter without truncation. -/
theorem C9_arms_cover_and_bounds (m : Nat) (h1 : 1 ≤ m) (h2 : m ≤ 99) :
    ∃ v, calculate_time m = .ok v ∧ 101 ≤ v ∧ v ≤ 195 := by
  obtain ⟨ho, hlo, hhi⟩ := calculate_time_ok_bounds m (by omega) h1
  cases hc : calculate_time m with
  | error e => rw [hc] at ho; simp [exceptIsOk] at ho
  | ok v =>
    rw [hc] at hlo hhi
    exact ⟨v, rfl, by simpa [okValue] using hlo, by simpa [okValue] using hhi⟩

/-- Witness for C9 at `minutes = 50`. -/
theorem C9_witness :
    ∃ v, calculate_time 50 = .ok v ∧ 101 ≤ v ∧ v ≤ 195 :=
  C9_arms_cover_and_bounds 50 (by decide) (by decide)

/-- Claim C10: in the `10..=19` arm the `u8` subtraction
`minutes - 19` wraps below zero for `minutes` in `10..=18` (its `u8`
value is `minutes + 237`, not the mathematical `minutes - 19`), yet the
arm's final wrapped result `125 + (minutes - 19)` equals `106 + minutes`,
the mathematically intended value, for every `minutes` in `10..=19`. -/
theorem C10_u8_wraparound (m : Nat) (h1 : 10 ≤ m) (h2 : m ≤ 19) :
    (m ≤ 18 →
      u8sub m 19 = m + 237 ∧ (u8sub m 19 : Int) ≠ (m : Int) - 19) ∧
    u8add 125 (u8sub m 19) = 106 + m ∧
    calculate_time m = .ok (106 + m) :=
  calculate_time_teens m (by omega) h1

/-- Witness for C10 at `minutes = 10`. -/
theorem C10_witness :
    (10 ≤ 18 →
      u8sub 10 19 = 10 + 237 ∧ (u8sub 10 19 : Int) ≠ (10 : Int) - 19) ∧
    u8add 125 (u8sub 10 19) = 106 + 10 ∧
    calculate_time 10 = .ok (106 + 10) :=
  C10_u8_wraparound 10 (by decide) (by decide)

/-- Claim C3: the status parser splits on runs of whitespace, takes at
most the first seven tokens, parses each as a number; it fails with
`InvalidResponse` when any of those parses fails or when fewer than
seven tokens are available, and otherwise fills the seven fields with
the parsed numbers in the fixed order. -/
theorem C3_status_line_parse (s : List Char) :
    (∀ vs, parseAll ((splitWhitespace s).take 7) = some vs →
      vs.length = 7 →
      UpsStatus.from_str s = .ok ⟨vs.getD 0 0, vs.getD 1 0, vs.getD 2 0,
        vs.getD 3 0, vs.getD 4 0, vs.getD 5 0, vs.getD 6 0⟩) ∧
    (parseAll ((splitWhitespace s).take 7) = none →
      UpsStatus.from_str s = .error UpsError.InvalidResponse) ∧
    ((splitWhitespace s).length < 7 →
      UpsStatus.from_str s = .error UpsError.InvalidResponse) := by
  refine ⟨?_, ?_, ?_⟩
  · intro vs hp hl
    unfold UpsStatus.from_str
    rw [hp]
    simp [hl]
  · intro hp
    unfold UpsStatus.from_str
    rw [hp]
  · intro hlen
    unfold UpsStatus.from_str
    cases hp : parseAll ((splitWhitespace s).take 7) with
    | none => rfl
    | some vs =>
      have hv := parseAll_length _ _ hp
      rw [List.length_take] at hv
      have hne : vs.length ≠ 7 := by omega
      simp [hne]

/-- Witness for C3: the spec's round-trip example parses to the
expected seven fields in order. -/
theorem C3_witness :
    UpsStatus.from_str ("230.0 195.0 230.0 50 50.0 13.6 35.0".toList) =
      .ok ⟨230, 195, 230, 50, 50, 68 / 5, 35⟩ := by
  have hsplit :
      splitWhitespace ("230.0 195.0 230.0 50 50.0 13.6 35.0".toList) =
      [['2', '3', '0', '.', '0'], ['1', '9', '5', '.', '0'],
       ['2', '3', '0', '.', '0'], ['5', '0'], ['5', '0', '.', '0'],
       ['1', '3', '.', '6'], ['3', '5', '.', '0']] := by decide
  have p1 : parseF64 ['2', '3', '0', '.', '0'] = some 230 := by
    have e : parseF64 ['2', '3', '0', '.', '0'] =
        some ((digitsVal ['2', '3', '0'] : Rat) +
          (digitsVal ['0'] : Rat) / ((10 : Rat) ^ 1)) := rfl
    have d1 : digitsVal ['2', '3', '0'] = 230 := by decide
    have d2 : digitsVal ['0'] = 0 := by decide
    rw [e, d1, d2]
    norm_num
  have p2 : parseF64 ['1', '9', '5', '.', '0'] = some 195 := by
    have e : parseF64 ['1', '9', '5', '.', '0'] =
        some ((digitsVal ['1', '9', '5'] : Rat) +
          (digitsVal ['0'] : Rat) / ((10 : Rat) ^ 1)) := rfl
    have d1 : digitsVal ['1', '9', '5'] = 195 := by decide
    have d2 : digitsVal ['0'] = 0 := by decide
    rw [e, d1, d2]
    norm_num
  have p4 : parseF64 ['5', '0'] = some 50 := by
    have e : parseF64 ['5', '0'] = some ((digitsVal ['5', '0'] : Rat)) := rfl
    have d1 : digitsVal ['5', '0'] = 50 := by decide
    rw [e, d1]
    norm_num
  have p5 : parseF64 ['5', '0', '.', '0'] = some 50 := by
    have e : parseF64 ['5', '0', '.', '0'] =
        some ((digitsVal ['5', '0'] : Rat) +
          (digitsVal ['0'] : Rat) / ((10 : Rat) ^ 1)) := rfl
    have d1 : digitsVal ['5', '0'] = 50 := by decide
    have d2 : digitsVal ['0'] = 0 := by decide
    rw [e, d1, d2]
    norm_num
  have p6 : parseF64 ['1', '3', '.', '6'] = some (68 / 5) := by
    have e : parseF64 ['1', '3', '.', '6'] =
        some ((digitsVal ['1', '3'] : Rat) +
          (digitsVal ['6'] : Rat) / ((10 : Rat) ^ 1)) := rfl
    have d1 : digitsVal ['1', '3'] = 13 := by decide
    have d2 : digitsVal ['6'] = 6 := by decide
    rw [e, d1, d2]
    norm_num
  have p7 : parseF64 ['3', '5', '.', '0'] = some 35 := by
    have e : parseF64 ['3', '5', '.', '0'] =
        some ((digitsVal ['3', '5'] : Rat) +
          (digitsVal ['0'] : Rat) / ((10 : Rat) ^ 1)) := rfl
    have d1 : digitsVal ['3', '5'] = 35 := by decide
    have d2 : digitsVal ['0'] = 0 := by decide
    rw [e, d1, d2]
    norm_num
  have hparse :
      parseAll ((splitWhitespace
        ("230.0 195.0 230.0 50 50.0 13.6 35.0".toList)).take 7) =
      some [230, 195, 230, 50, 50, 68 / 5, 35] := by
    rw [hsplit]
    simp [parseAll, p1, p2, p4, p5, p6, p7]
  exact (C3_status_line_parse _).1 [230, 195, 230, 50, 50, 68 / 5, 35] hparse
    (by simp)

/-- Claim C7: the acknowledged status query issues exactly two reads of
descriptor 3 with max length 256, separated by the fixed 1-second
sleep; its result is the parse of the second read only (it equals the
unacknowledged query applied to the second response), and the
unacknowledged query issues exactly one read. -/
theorem C7_ack_protocol (r1 r2 : Response) (h : 3 ≤ r1.1) :
    (get_status r1 r2).1 =
      [Event.read 3 256, Event.sleep 1, Event.read 3 256] ∧
    (get_status r1 r2).2 = (get_status_no_ack r2).2 ∧
    (get_status_no_ack r2).1 = [Event.read 3 256] := by
  unfold get_status get_status_no_ack
  simp [get_string_descriptor, h]

/-- Witness for C7 at two successful 3-byte responses. -/
theorem C7_witness :
    (get_status (3, [51, 46, 48]) (3, [51, 46, 48])).1 =
      [Event.read 3 256, Event.sleep 1, Event.read 3 256] ∧
    (get_status (3, [51, 46, 48]) (3, [51, 46, 48])).2 =
      (get_status_no_ack (3, [51, 46, 48])).2 ∧
    (get_status_no_ack (3, [51, 46, 48])).1 = [Event.read 3 256] :=
  C7_ack_protocol (3, [51, 46, 48]) (3, [51, 46, 48]) (by decide)

/-- Claim C8: each logical command reads its fixed descriptor index
with max length 256, except `shutdown` (max length 2460) and
`test_with_time`, which passes the computed time code of its minutes
argument as the max-length parameter. -/
theorem C8_command_table (r : Response) (m : Nat) :
    (get_name r).1 = [Event.read 2 256] ∧
    (get_status_no_ack r).1 = [Event.read 3 256] ∧
    (test r).1 = [Event.read 4 256] ∧
    (test_until_battery_low r).1 = [Event.read 5 256] ∧
    (switch_beep r).1 = [Event.read 7 256] ∧
    (abort_test r).1 = [Event.read 11 256] ∧
    (get_rating r).1 = [Event.read 13 256] ∧
    (shutdown r).1 = [Event.read 105 2460] ∧
    (∀ t, calculate_time m = .ok t →
      (test_with_time m r).1 = [Event.read 6 t]) := by
  refine ⟨rfl, rfl, rfl, rfl, rfl, rfl, rfl, rfl, ?_⟩
  intro t ht
  simp [test_with_time, ht]

/-- Witness for C8: `test_with_time` with 1 minute reads descriptor 6
with the computed code 101 as the max-length parameter. -/
theorem C8_witness :
    (test_with_time 1 (3, [])).1 = [Event.read 6 101] :=
  (C8_command_table (3, []) 1).2.2.2.2.2.2.2.2 101 (by decide)
